import Mathlib

/-
Verification of the county census dashboard repository.

The repository has two source files:
  backend.py         : query layer over the persisted table (county_data.csv)
  gen_county_data.py : the Builder script that downloads, reconciles and
                       persists the table.

This file gives a shallow embedding of both, faithful to the Python source:
  - a pandas cell holding a float is modelled by PFloat (finite rational,
    positive infinity, negative infinity, or NaN); a nullable column value in
    a table is an Option of a rational, with none standing for NaN/null;
  - pandas sort_values is modelled by List.mergeSort with an explicit boolean
    comparator (comparisons on strings are lexicographic on code points, as
    in Python);
  - Series.unique and dict.fromkeys, both of which drop duplicates keeping
    the first occurrence in order, are modelled by uniqueFirst;
  - the bare Python assert in the Builder is modelled by Except String with
    the empty message, since a bare assert raises AssertionError with no
    arguments.
-/

namespace CensusApp

/-- Lexicographic comparison of character lists by code point, the order in
which Python and pandas compare strings. -/
def charsLe : List Char → List Char → Bool
  | [], _ => true
  | _ :: _, [] => false
  | a :: as, b :: bs => if a < b then true else if b < a then false else charsLe as bs

/-- Strict lexicographic comparison of character lists by code point. -/
def charsLt : List Char → List Char → Bool
  | [], [] => false
  | [], _ :: _ => true
  | _ :: _, [] => false
  | a :: as, b :: bs => if a < b then true else if b < a then false else charsLt as bs

/-- String comparison used by the model of sort_values on string columns. -/
def strLeB (s t : String) : Bool := charsLe s.data t.data

/-- Strict string comparison used for sort keys of the Builder. -/
def strLtB (s t : String) : Bool := charsLt s.data t.data

theorem charsLe_total : ∀ xs ys, charsLe xs ys = true ∨ charsLe ys xs = true := by
  intro xs
  induction xs with
  | nil => intro ys; left; rfl
  | cons a as ih =>
    intro ys
    cases ys with
    | nil => right; rfl
    | cons b bs =>
      by_cases hab : a < b
      · left; simp [charsLe, hab]
      · by_cases hba : b < a
        · right; simp [charsLe, hba, asymm hba]
        · rcases ih bs with h | h
          · left; simp [charsLe, hab, hba, h]
          · right; simp [charsLe, hab, hba, h]

theorem charsLe_trans :
    ∀ xs ys zs, charsLe xs ys = true → charsLe ys zs = true → charsLe xs zs = true := by
  intro xs
  induction xs with
  | nil => intro ys zs _ _; rfl
  | cons a as ih =>
    intro ys zs h1 h2
    cases ys with
    | nil => simp [charsLe] at h1
    | cons b bs =>
      cases zs with
      | nil => simp [charsLe] at h2
      | cons c cs =>
        simp only [charsLe] at h1 h2 ⊢
        by_cases hab : a < b
        · by_cases hbc : b < c
          · simp [lt_trans hab hbc]
          · by_cases hcb : c < b
            · simp [charsLe, hbc, hcb] at h2
            · have hbc2 : b = c := le_antisymm (not_lt.mp hcb) (not_lt.mp hbc)
              subst hbc2
              simp [hab]
        · by_cases hba : b < a
          · simp [charsLe, hab, hba] at h1
          · have hab2 : a = b := le_antisymm (not_lt.mp hba) (not_lt.mp hab)
            subst hab2
            by_cases hbc : a < c
            · simp [hbc]
            · by_cases hcb : c < a
              · simp [charsLe, hbc, hcb] at h2
              · simp only [if_neg hbc, if_neg hcb]
                simp only [if_neg (lt_irrefl a)] at h1
                simp only [if_neg hbc, if_neg hcb] at h2
                exact ih bs cs h1 h2

theorem strLeB_total (s t : String) : strLeB s t = true ∨ strLeB t s = true :=
  charsLe_total s.data t.data

theorem strLeB_trans (s t u : String) :
    strLeB s t = true → strLeB t u = true → strLeB s u = true :=
  charsLe_trans s.data t.data u.data

/-- Helper for uniqueFirst: walk the list keeping track of the values already
seen, keeping an element exactly when it is not in the seen accumulator. -/
def uniqueSeen {α : Type} [DecidableEq α] (seen : List α) : List α → List α
  | [] => []
  | a :: as => if a ∈ seen then uniqueSeen seen as else a :: uniqueSeen (a :: seen) as

/-- Duplicate removal preserving the first occurrence of each element, the
behaviour of dict.fromkeys in get_unique_census_labels and of Series.unique in
get_county_names. -/
def uniqueFirst {α : Type} [DecidableEq α] (l : List α) : List α :=
  uniqueSeen [] l

/-- Spec-side recursion for first-seen order: an element at a given position
is kept exactly when it does not occur in the prefix before that position. -/
def firstSeenSpec {α : Type} [DecidableEq α] (pre : List α) : List α → List α
  | [] => []
  | a :: as =>
      if a ∈ pre then firstSeenSpec (pre ++ [a]) as
      else a :: firstSeenSpec (pre ++ [a]) as

theorem mem_uniqueSeen {α : Type} [DecidableEq α] (seen : List α) (l : List α) (x : α) :
    x ∈ uniqueSeen seen l ↔ x ∈ l ∧ x ∉ seen := by
  induction l generalizing seen with
  | nil => simp [uniqueSeen]
  | cons a as ih =>
    by_cases ha : a ∈ seen
    · simp only [uniqueSeen, if_pos ha, ih, List.mem_cons]
      constructor
      · rintro ⟨h1, h2⟩; exact ⟨Or.inr h1, h2⟩
      · rintro ⟨h1 | h1, h2⟩
        · subst h1; exact absurd ha h2
        · exact ⟨h1, h2⟩
    · simp only [uniqueSeen, if_neg ha, List.mem_cons, ih, not_or]
      constructor
      · rintro (rfl | ⟨h1, h2, h3⟩)
        · exact ⟨Or.inl rfl, ha⟩
        · exact ⟨Or.inr h1, h3⟩
      · rintro ⟨rfl | h1, h2⟩
        · exact Or.inl rfl
        · by_cases hxa : x = a
          · exact Or.inl hxa
          · exact Or.inr ⟨h1, hxa, h2⟩

theorem nodup_uniqueSeen {α : Type} [DecidableEq α] (seen : List α) (l : List α) :
    (uniqueSeen seen l).Nodup := by
  induction l generalizing seen with
  | nil => simp [uniqueSeen]
  | cons a as ih =>
    by_cases ha : a ∈ seen
    · simpa [uniqueSeen, if_pos ha] using ih seen
    · simp only [uniqueSeen, if_neg ha, List.nodup_cons]
      refine ⟨?_, ih (a :: seen)⟩
      intro hmem
      exact ((mem_uniqueSeen _ _ _).mp hmem).2 (List.mem_cons_self a seen)

theorem sublist_uniqueSeen {α : Type} [DecidableEq α] (seen : List α) (l : List α) :
    (uniqueSeen seen l).Sublist l := by
  induction l generalizing seen with
  | nil => simp [uniqueSeen]
  | cons a as ih =>
    by_cases ha : a ∈ seen
    · simpa [uniqueSeen, if_pos ha] using (ih seen).cons a
    · simpa [uniqueSeen, if_neg ha] using (ih (a :: seen)).cons₂ a

theorem uniqueSeen_eq_firstSeenSpec {α : Type} [DecidableEq α]
    (seen pre : List α) (l : List α) (h : ∀ x, x ∈ seen ↔ x ∈ pre) :
    uniqueSeen seen l = firstSeenSpec pre l := by
  induction l generalizing seen pre with
  | nil => rfl
  | cons a as ih =>
    by_cases ha : a ∈ seen
    · have ha2 : a ∈ pre := (h a).mp ha
      simp only [uniqueSeen, if_pos ha, firstSeenSpec, if_pos ha2]
      refine ih seen (pre ++ [a]) ?_
      intro x
      rw [h x]
      constructor
      · intro hx; exact List.mem_append_left _ hx
      · intro hx
        rcases List.mem_append.mp hx with hx | hx
        · exact hx
        · rcases List.mem_singleton.mp hx with rfl
          exact ha2
    · have ha2 : a ∉ pre := fun hc => ha ((h a).mpr hc)
      simp only [uniqueSeen, if_neg ha, firstSeenSpec, if_neg ha2]
      congr 1
      refine ih (a :: seen) (pre ++ [a]) ?_
      intro x
      simp only [List.mem_cons, List.mem_append, List.mem_singleton, h x]
      tauto

theorem uniqueFirst_eq_firstSeenSpec {α : Type} [DecidableEq α] (l : List α) :
    uniqueFirst l = firstSeenSpec [] l :=
  uniqueSeen_eq_firstSeenSpec [] [] l (by simp)

theorem mem_uniqueFirst {α : Type} [DecidableEq α] (l : List α) (x : α) :
    x ∈ uniqueFirst l ↔ x ∈ l := by
  rw [uniqueFirst, mem_uniqueSeen]
  simp

theorem nodup_uniqueFirst {α : Type} [DecidableEq α] (l : List α) :
    (uniqueFirst l).Nodup :=
  nodup_uniqueSeen [] l

theorem sublist_uniqueFirst {α : Type} [DecidableEq α] (l : List α) :
    (uniqueFirst l).Sublist l :=
  sublist_uniqueSeen [] l

/-- Model of a pandas float cell: NaN, positive infinity, negative infinity,
or a finite value (taken exactly rational). -/
inductive PFloat where
  | nan : PFloat
  | inf : PFloat
  | ninf : PFloat
  | fin : ℚ → PFloat
deriving DecidableEq, Repr

/-- Test for NaN, the model of pd.isna on a float cell. -/
def PFloat.isNA : PFloat → Bool
  | .nan => true
  | _ => false

/-- Lift a nullable column value into a float cell; a missing value is NaN. -/
def PFloat.ofOpt : Option ℚ → PFloat
  | none => .nan
  | some q => .fin q

/-- IEEE style subtraction on float cells, used to model df2[2021] - df2[2019]. -/
def PFloat.sub : PFloat → PFloat → PFloat
  | .nan, _ => .nan
  | _, .nan => .nan
  | .inf, .inf => .nan
  | .inf, _ => .inf
  | .ninf, .ninf => .nan
  | .ninf, _ => .ninf
  | .fin _, .inf => .ninf
  | .fin _, .ninf => .inf
  | .fin a, .fin b => .fin (a - b)

/-- IEEE style division on float cells. Division of a finite nonzero value by
zero gives a signed infinity (the zero denominators of the data carry positive
sign) and zero by zero gives NaN, exactly as numpy produces for float columns. -/
def PFloat.div : PFloat → PFloat → PFloat
  | .nan, _ => .nan
  | _, .nan => .nan
  | .inf, .inf => .nan
  | .inf, .ninf => .nan
  | .ninf, .inf => .nan
  | .ninf, .ninf => .nan
  | .inf, .fin b => if b < 0 then .ninf else .inf
  | .ninf, .fin b => if b < 0 then .inf else .ninf
  | .fin _, .inf => .fin 0
  | .fin _, .ninf => .fin 0
  | .fin a, .fin b =>
      if b = 0 then (if a = 0 then .nan else if 0 < a then .inf else .ninf)
      else .fin (a / b)

/-- Multiplication of a float cell by the scalar 100. -/
def PFloat.mul100 : PFloat → PFloat
  | .nan => .nan
  | .inf => .inf
  | .ninf => .ninf
  | .fin a => .fin (a * 100)

/-- Round a rational to the nearest integer, ties to even, the rounding used
by numpy and hence by Series.round. -/
def roundHalfEven (x : ℚ) : ℤ :=
  let d : ℤ := (x.den : ℤ)
  let fl : ℤ := x.num.ediv d
  let r : ℤ := x.num.emod d
  if 2 * r < d then fl
  else if d < 2 * r then fl + 1
  else if fl % 2 = 0 then fl else fl + 1

/-- Round a rational to one decimal place, ties to even. -/
def rnd1 (q : ℚ) : ℚ := (roundHalfEven (q * 10) : ℚ) / 10

/-- Model of Series.round(1) on a float cell: infinities and NaN are kept. -/
def PFloat.round1 : PFloat → PFloat
  | .fin a => .fin (rnd1 a)
  | x => x

/-
Query layer, from backend.py. The loaded table county_data.csv is a list of
rows; each row holds the display names, the year, the FIPS string and the
variable columns keyed by display label (nullable rationals).
-/

/-- Row of the loaded table of backend.py. -/
structure BRow where
  STATE_NAME : String
  COUNTY_NAME : String
  YEAR : ℕ
  FIPS : String
  vals : List (String × Option ℚ)
deriving DecidableEq, Repr

/-- Model of get_county_names: filter on the state, take the county column,
sort it, keep the first occurrence of each value (Series.unique preserves the
order of appearance, which after the sort is ascending order). -/
def get_county_names (df : List BRow) (state_name : String) : List String :=
  uniqueFirst (((df.filter (fun r => r.STATE_NAME = state_name)).map
    (fun r => r.COUNTY_NAME)).mergeSort strLeB)

/-- Result frame of get_census_data: the four selected columns and the
filtered rows projected to them. -/
structure SRow where
  STATE_NAME : String
  COUNTY_NAME : String
  YEAR : ℕ
  val : Option ℚ
deriving DecidableEq, Repr

/-- Frame returned by get_census_data: column names plus data rows. -/
structure QFrame where
  cols : List String
  rows : List SRow
deriving DecidableEq, Repr

/-- Model of get_census_data: filter rows on state and county names, select
the columns STATE_NAME, COUNTY_NAME, YEAR and the requested variable. No
sorting is performed by the query. -/
def get_census_data (df : List BRow) (state_name county_name var : String) : QFrame :=
  { cols := ["STATE_NAME", "COUNTY_NAME", "YEAR", var],
    rows := (df.filter
        (fun r => r.STATE_NAME = state_name ∧ r.COUNTY_NAME = county_name)).map
      (fun r => ⟨r.STATE_NAME, r.COUNTY_NAME, r.YEAR, (r.vals.lookup var).join⟩) }

/-- Model of get_unique_census_labels: dict.fromkeys over the values of the
census_vars configuration map removes duplicate labels keeping first-seen
order. The configuration map is a parameter (it lives in census_vars.py). -/
def get_unique_census_labels (census_vars : List (String × String)) : List String :=
  uniqueFirst (census_vars.map Prod.snd)

/-- Input row of the ranking pivot: the combined County display name, the
year, and the value of the selected column. -/
structure RankInRow where
  County : String
  YEAR : ℕ
  val : Option ℚ
deriving DecidableEq, Repr

/-- First steps of get_ranking_df: keep the 2019 and 2021 rows, combine state
and county into a single County column, and select the value column. -/
def rankInput (df : List BRow) (column : String) : List RankInRow :=
  (df.filter (fun r => r.YEAR = 2019 ∨ r.YEAR = 2021)).map
    (fun r => ⟨r.COUNTY_NAME ++ ", " ++ r.STATE_NAME, r.YEAR, (r.vals.lookup column).join⟩)

/-- Mean aggregation of pivot_table: NaN entries are skipped; the mean of an
empty group is NaN. -/
def aggMean (vs : List ℚ) : PFloat :=
  if vs = [] then .nan else .fin (vs.sum / (vs.length : ℚ))

/-- Entry of the pivot for one County and one year column. -/
def cellFor (rows : List RankInRow) (c : String) (y : ℕ) : PFloat :=
  aggMean ((rows.filter (fun r => r.County = c ∧ r.YEAR = y)).filterMap (fun r => r.val))

/-- Index of the pivot: the distinct County names, sorted ascending, as
pivot_table sorts its index. -/
def pivotCounties (rows : List RankInRow) : List String :=
  (uniqueFirst (rows.map (fun r => r.County))).mergeSort strLeB

/-- Row of the pivoted frame: one County with its two year columns. -/
structure PivotRow where
  County : String
  y2019 : PFloat
  y2021 : PFloat
deriving DecidableEq, Repr

/-- Model of pivot_table on the County index and YEAR columns: one row per
distinct County name; index entries whose values are all NaN are dropped. -/
def pivot_table (rows : List RankInRow) : List PivotRow :=
  ((pivotCounties rows).map (fun c => ⟨c, cellFor rows c 2019, cellFor rows c 2021⟩)).filter
    (fun p => ¬(p.y2019 = .nan ∧ p.y2021 = .nan))

/-- Pivot row extended with the Change and Percent Change columns. -/
structure RankedPre where
  County : String
  y2019 : PFloat
  y2021 : PFloat
  Change : PFloat
  PercentChange : PFloat
deriving DecidableEq, Repr

/-- Change and rounded percent change computation of get_ranking_df. -/
def withChange (p : PivotRow) : RankedPre :=
  { County := p.County, y2019 := p.y2019, y2021 := p.y2021,
    Change := p.y2021.sub p.y2019,
    PercentChange := (((p.y2021.sub p.y2019).div p.y2019).mul100).round1 }

/-- Numeric comparison of float cells; both arguments are assumed not NaN
when this is consulted. -/
def PFloat.leNum : PFloat → PFloat → Bool
  | .nan, _ => false
  | _, .nan => false
  | .ninf, _ => true
  | _, .ninf => false
  | _, .inf => true
  | .inf, _ => false
  | .fin a, .fin b => a ≤ b

/-- Comparator modelling sort_values on Percent Change with descending order
and the default na_position last: NaN entries sort after every non-NaN entry,
non-NaN entries sort by descending numeric value. -/
def descBefore (a b : RankedPre) : Bool :=
  if a.PercentChange.isNA then b.PercentChange.isNA
  else if b.PercentChange.isNA then true
  else PFloat.leNum b.PercentChange a.PercentChange

/-- Output row of get_ranking_df with its Rank index. -/
structure RankedRow where
  Rank : ℕ
  County : String
  y2019 : PFloat
  y2021 : PFloat
  Change : PFloat
  PercentChange : PFloat
deriving DecidableEq, Repr

/-- Assign ranks 1..n in order, the model of the list(range(1, len + 1))
assignment of get_ranking_df. -/
def addRanks : ℕ → List RankedPre → List RankedRow
  | _, [] => []
  | k, p :: ps =>
      ⟨k, p.County, p.y2019, p.y2021, p.Change, p.PercentChange⟩ :: addRanks (k + 1) ps

/-- Predicate of the final dropna: keep a row exactly when none of its float
columns is NaN (the County and Rank columns are never null). -/
def rankedNoNA (r : RankedRow) : Bool :=
  !(r.y2019.isNA || r.y2021.isNA || r.Change.isNA || r.PercentChange.isNA)

/-- Model of get_ranking_df: filter to the two reference years, pivot on the
County display name, compute change and rounded percent change, sort
descending by percent change, assign ranks 1..n, then drop rows with NaN. -/
def get_ranking_df (df : List BRow) (column : String) : List RankedRow :=
  (addRanks 1 (((pivot_table (rankInput df column)).map withChange).mergeSort descBefore)).filter
    rankedNoNA

/-
Dataset Builder, from gen_county_data.py. The downloaded rows are a
parameter; a row carries the raw state and county identifiers (the index
columns), the combined NAME, the split display names, the year, the two work
from home source columns and the remaining variable columns keyed by census
variable code.
-/

/-- Downloaded row accumulated by the year loop of gen_county_data.py. -/
structure GenRow where
  STATE : String
  COUNTY : String
  NAME : String
  COUNTY_NAME : String
  STATE_NAME : String
  YEAR : ℕ
  B08006_021E : Option ℚ
  B08006_017E : Option ℚ
  others : List (String × Option ℚ)
deriving DecidableEq, Repr

/-- Set of county names appearing in both reference year downloads, modelled
as the list intersection (membership is all that is used of the Python set). -/
def names_of_counties_in_both (n19 n21 : List String) : List String :=
  n19.inter n21

/-- Comparator of the sort_values call on the STATE, COUNTY, YEAR key. -/
def genLeB (a b : GenRow) : Bool :=
  strLtB a.STATE b.STATE ||
    (a.STATE == b.STATE && (strLtB a.COUNTY b.COUNTY ||
      (a.COUNTY == b.COUNTY && decide (a.YEAR ≤ b.YEAR))))

/-- Model of splice_wfh_columns: the bare assert raises AssertionError (with
no message, hence the empty string) when both source fields are populated;
otherwise the merged value is the first field when populated, else the
second. -/
def splice_wfh_columns (row : GenRow) : Except String (Option ℚ) :=
  if row.B08006_021E.isSome ∧ row.B08006_017E.isSome then .error ""
  else if row.B08006_021E.isSome then .ok row.B08006_021E
  else .ok row.B08006_017E

/-- Row after the merge of the two work from home columns: the two source
columns are deleted and the merged column is appended. -/
structure SplicedRow where
  STATE : String
  COUNTY : String
  NAME : String
  COUNTY_NAME : String
  STATE_NAME : String
  YEAR : ℕ
  twfh : Option ℚ
  others : List (String × Option ℚ)
deriving DecidableEq, Repr

/-- Merge step applied to one row. -/
def spliceRow (row : GenRow) : Except String SplicedRow :=
  match splice_wfh_columns row with
  | .error e => .error e
  | .ok v => .ok ⟨row.STATE, row.COUNTY, row.NAME, row.COUNTY_NAME,
      row.STATE_NAME, row.YEAR, v, row.others⟩

/-- Model of DataFrame.apply along rows with a fallible function: rows are
processed in order and the first raised error aborts the whole computation. -/
def mapExcept {α β : Type} (f : α → Except String β) : List α → Except String (List β)
  | [] => .ok []
  | a :: as =>
    match f a with
    | .error e => .error e
    | .ok b =>
      match mapExcept f as with
      | .error e => .error e
      | .ok bs => .ok (b :: bs)

/-- Cell of the persisted table. -/
inductive Cell where
  | str : String → Cell
  | nat : ℕ → Cell
  | num : Option ℚ → Cell
deriving DecidableEq, Repr

/-- Column renaming from census variable codes to display labels, the model
of DataFrame.rename with the census_vars map. -/
def rename_columns (census_vars : List (String × String)) (c : String) : String :=
  (census_vars.lookup c).getD c

/-- Columns of a spliced row keyed by name after the rename step. The
physical order of this association list is irrelevant: the subsequent
selection is by column name. -/
def splicedAssoc (census_vars : List (String × String)) (r : SplicedRow) :
    List (String × Cell) :=
  (r.others.map (fun kv => (rename_columns census_vars kv.1, Cell.num kv.2)))
    ++ [("NAME", Cell.str r.NAME), ("COUNTY_NAME", Cell.str r.COUNTY_NAME),
        ("STATE_NAME", Cell.str r.STATE_NAME), ("YEAR", Cell.nat r.YEAR),
        ("Total Worked from Home", Cell.num r.twfh)]

/-- Column order of the reorder step: the three leading columns then the
deduplicated display labels in configuration order. -/
def column_order (census_vars : List (String × String)) : List String :=
  ["STATE_NAME", "COUNTY_NAME", "YEAR"] ++ get_unique_census_labels census_vars

/-- Column selection by name, the model of indexing a frame with a column
list. -/
def selectCols (cols : List String) (assoc : List (String × Cell)) :
    List (String × Cell) :=
  cols.map (fun c => (c, (assoc.lookup c).getD (Cell.num none)))

/-- Final shape of one persisted row: reset_index prepends the raw STATE and
COUNTY identifier columns, assign appends the FIPS column as their
concatenation, and drop removes the two raw identifier columns. -/
def persistRow (census_vars : List (String × String)) (r : SplicedRow) :
    List (String × Cell) :=
  (([("STATE", Cell.str r.STATE), ("COUNTY", Cell.str r.COUNTY)]
      ++ selectCols (column_order census_vars) (splicedAssoc census_vars r))
    ++ [("FIPS", Cell.str (r.STATE ++ r.COUNTY))]).filter
    (fun p => !(p.1 == "STATE" || p.1 == "COUNTY"))

/-- Rows reaching the merge step: the accumulated rows filtered to the stable
county set and sorted by the STATE, COUNTY, YEAR key. -/
def processedRows (rows : List GenRow) (n19 n21 : List String) : List GenRow :=
  (rows.filter (fun r => r.NAME ∈ names_of_counties_in_both n19 n21)).mergeSort genLeB

/-- End of the Builder run: merge the work from home columns (aborting on the
assertion) and shape each row for the persisted file. An error means the run
aborts with no output written. -/
def buildTable (rows : List GenRow) (n19 n21 : List String)
    (census_vars : List (String × String)) :
    Except String (List (List (String × Cell))) :=
  match mapExcept spliceRow (processedRows rows n19 n21) with
  | .error e => .error e
  | .ok rs => .ok (rs.map (persistRow census_vars))

/-- Forget the Rank index of an output row of get_ranking_df. -/
def stripRank (r : RankedRow) : RankedPre :=
  ⟨r.County, r.y2019, r.y2021, r.Change, r.PercentChange⟩

/-- The dropna predicate expressed before rank assignment. -/
def preNoNA (p : RankedPre) : Bool :=
  !(p.y2019.isNA || p.y2021.isNA || p.Change.isNA || p.PercentChange.isNA)

/-- Concrete table with a single region whose 2019 value is zero and whose
2021 value is present and nonzero. -/
def dfRankB : List BRow :=
  [⟨"S", "B", 2019, "01003", [("Total Population", some 0)]⟩,
   ⟨"S", "B", 2021, "01003", [("Total Population", some 150)]⟩]

/-- Concrete table with two regions over the two reference years. -/
def dfRankAB : List BRow :=
  [⟨"S", "A", 2019, "01001", [("Total Population", some 100)]⟩,
   ⟨"S", "A", 2021, "01001", [("Total Population", some 150)]⟩,
   ⟨"S", "B", 2019, "01003", [("Total Population", some 0)]⟩,
   ⟨"S", "B", 2021, "01003", [("Total Population", some 150)]⟩]

/-- Concrete table with a single region whose 2019 value is null. -/
def dfRankNull : List BRow :=
  [⟨"S", "C", 2019, "01005", [("Total Population", none)]⟩,
   ⟨"S", "C", 2021, "01005", [("Total Population", some 5)]⟩]

/-
Helper lemmas shared by the claim theorems.
-/

theorem charsLt_irrefl : ∀ l : List Char, charsLt l l = false := by
  intro l
  induction l with
  | nil => rfl
  | cons a as ih => simp [charsLt, ih]

theorem strLtB_irrefl (s : String) : strLtB s s = false :=
  charsLt_irrefl s.data

theorem strLeB_or_total (a b : String) : (strLeB a b || strLeB b a) = true := by
  rcases strLeB_total a b with h | h
  · simp [h]
  · simp [h]

theorem mapExcept_ok_mem {α β : Type} (f : α → Except String β) (l : List α)
    (bs : List β) (h : mapExcept f l = .ok bs) :
    ∀ b ∈ bs, ∃ a ∈ l, f a = .ok b := by
  induction l generalizing bs with
  | nil =>
    simp only [mapExcept] at h
    cases h
    simp
  | cons a as ih =>
    simp only [mapExcept] at h
    cases hfa : f a with
    | error e => rw [hfa] at h; exact absurd h (by simp)
    | ok b0 =>
      rw [hfa] at h
      cases hrest : mapExcept f as with
      | error e => rw [hrest] at h; exact absurd h (by simp)
      | ok bs0 =>
        rw [hrest] at h
        injection h with h
        subst h
        intro b hb
        rcases List.mem_cons.mp hb with rfl | hb
        · exact ⟨a, List.mem_cons_self a as, hfa⟩
        · rcases ih bs0 hrest b hb with ⟨a1, ha1, hfa1⟩
          exact ⟨a1, List.mem_cons_of_mem a ha1, hfa1⟩

theorem mapExcept_ok_iff {α β : Type} (f : α → Except String β) (l : List α) :
    (∃ bs, mapExcept f l = .ok bs) ↔ ∀ a ∈ l, ∃ b, f a = .ok b := by
  induction l with
  | nil => simp [mapExcept]
  | cons a as ih =>
    simp only [mapExcept]
    cases hfa : f a with
    | error e =>
      simp only [List.mem_cons]
      constructor
      · rintro ⟨bs, hbs⟩; exact absurd hbs (by simp)
      · intro h
        rcases h a (Or.inl rfl) with ⟨b, hb⟩
        rw [hfa] at hb
        exact absurd hb (by simp)
    | ok b0 =>
      cases hrest : mapExcept f as with
      | error e =>
        constructor
        · rintro ⟨bs, hbs⟩; exact absurd hbs (by simp)
        · intro h
          have : ∃ bs, mapExcept f as = .ok bs :=
            ih.mpr (fun x hx => h x (List.mem_cons_of_mem a hx))
          rcases this with ⟨bs, hbs⟩
          rw [hrest] at hbs
          exact absurd hbs (by simp)
      | ok bs0 =>
        constructor
        · rintro ⟨bs, hbs⟩
          intro x hx
          rcases List.mem_cons.mp hx with rfl | hx
          · exact ⟨b0, hfa⟩
          · exact (ih.mp ⟨bs0, hrest⟩) x hx
        · intro _
          exact ⟨b0 :: bs0, rfl⟩

theorem mapExcept_error_of_mem {α β : Type} (f : α → Except String β) (l : List α)
    (hconst : ∀ a e, f a = .error e → e = "")
    (hex : ∃ a ∈ l, ∃ e, f a = .error e) :
    mapExcept f l = .error "" := by
  induction l with
  | nil => simp at hex
  | cons a as ih =>
    simp only [mapExcept]
    cases hfa : f a with
    | error e => rw [hconst a e hfa]
    | ok b =>
      rcases hex with ⟨x, hx, e, hxe⟩
      rcases List.mem_cons.mp hx with rfl | hx
      · rw [hfa] at hxe; exact absurd hxe (by simp)
      · rw [ih ⟨x, hx, e, hxe⟩]

theorem spliceRow_ok_fields (g : GenRow) (s : SplicedRow) (h : spliceRow g = .ok s) :
    s.NAME = g.NAME ∧ s.YEAR = g.YEAR ∧ s.STATE = g.STATE ∧ s.COUNTY = g.COUNTY := by
  unfold spliceRow at h
  cases hs : splice_wfh_columns g with
  | error e => rw [hs] at h; exact absurd h (by simp)
  | ok v =>
    rw [hs] at h
    injection h with h
    subst h
    exact ⟨rfl, rfl, rfl, rfl⟩

/-
Claim theorems.
-/

/-- C7: get_unique_census_labels returns the configured label sequence with
duplicates removed: no duplicate labels, every configured label occurs, in
first-seen order (the element at a position is kept exactly when it does not
occur earlier in the configured sequence). -/
theorem claim_unique_labels (census_vars : List (String × String)) :
    (get_unique_census_labels census_vars).Nodup
    ∧ (∀ l, l ∈ get_unique_census_labels census_vars ↔ l ∈ census_vars.map Prod.snd)
    ∧ get_unique_census_labels census_vars = firstSeenSpec [] (census_vars.map Prod.snd) :=
  ⟨nodup_uniqueFirst _, fun l => mem_uniqueFirst _ l, uniqueFirst_eq_firstSeenSpec _⟩

/-- C8: get_county_names returns the distinct county names of the rows of the
given state, sorted ascending, each name occurring at most once. -/
theorem claim_county_names (df : List BRow) (state_name : String) :
    List.Pairwise (fun a b => strLeB a b = true) (get_county_names df state_name)
    ∧ (get_county_names df state_name).Nodup
    ∧ ∀ c, c ∈ get_county_names df state_name ↔
        ∃ r ∈ df, r.STATE_NAME = state_name ∧ r.COUNTY_NAME = c := by
  refine ⟨?_, nodup_uniqueFirst _, ?_⟩
  · exact List.Pairwise.sublist (sublist_uniqueFirst _)
      (List.sorted_mergeSort (fun a b c => strLeB_trans a b c) strLeB_or_total _)
  · intro c
    rw [get_county_names, mem_uniqueFirst, List.mem_mergeSort, List.mem_map]
    constructor
    · rintro ⟨r, hr, rfl⟩
      rw [List.mem_filter] at hr
      exact ⟨r, hr.1, of_decide_eq_true hr.2, rfl⟩
    · rintro ⟨r, hr, hst, hco⟩
      exact ⟨r, List.mem_filter.mpr ⟨hr, decide_eq_true hst⟩, hco⟩

/-- C10: an unknown state yields an empty county list, and a state and county
pair matching no rows yields an empty frame that still carries the four
requested columns; both queries are total functions. -/
theorem claim_unknown_inputs (df : List BRow) (state_name county_name var : String) :
    ((∀ r ∈ df, r.STATE_NAME ≠ state_name) → get_county_names df state_name = [])
    ∧ ((∀ r ∈ df, ¬(r.STATE_NAME = state_name ∧ r.COUNTY_NAME = county_name)) →
        (get_census_data df state_name county_name var).rows = []
          ∧ (get_census_data df state_name county_name var).cols =
            ["STATE_NAME", "COUNTY_NAME", "YEAR", var]) := by
  constructor
  · intro h
    have hf : df.filter (fun r => decide (r.STATE_NAME = state_name)) = [] :=
      List.filter_eq_nil_iff.mpr (fun r hr => by
        simp only [decide_eq_true_eq]
        exact h r hr)
    rw [get_county_names]
    rw [hf]
    simp [List.mergeSort_nil, uniqueFirst, uniqueSeen]
  · intro h
    have hf : df.filter
        (fun r => decide (r.STATE_NAME = state_name ∧ r.COUNTY_NAME = county_name)) = [] :=
      List.filter_eq_nil_iff.mpr (fun r hr => by
        simp only [decide_eq_true_eq]
        exact h r hr)
    constructor
    · show (df.filter _).map _ = []
      rw [hf]
      rfl
    · rfl

/-- Witness for C10 at a concrete table and unknown inputs. -/
theorem claim_unknown_inputs_witness :
    get_county_names [⟨"Alabama", "Autauga County", 2019, "01001", []⟩] "Ohio" = []
    ∧ ((get_census_data [⟨"Alabama", "Autauga County", 2019, "01001", []⟩]
          "Alabama" "Summit County" "Total Population").rows = []
        ∧ (get_census_data [⟨"Alabama", "Autauga County", 2019, "01001", []⟩]
          "Alabama" "Summit County" "Total Population").cols =
            ["STATE_NAME", "COUNTY_NAME", "YEAR", "Total Population"]) :=
  ⟨(claim_unknown_inputs [⟨"Alabama", "Autauga County", 2019, "01001", []⟩]
      "Ohio" "Summit County" "Total Population").1 (by decide),
   (claim_unknown_inputs [⟨"Alabama", "Autauga County", 2019, "01001", []⟩]
      "Alabama" "Summit County" "Total Population").2 (by decide)⟩

/-- C5: on a table ordered the way the Builder writes it (pairwise strictly
increasing on the FIPS then YEAR key, which encodes both the sort of step 4
and the uniqueness of the region and year pair) and for a state and county
pair naming a single region, get_census_data returns rows with strictly
ascending years: one row per surveyed year, sorted ascending, no duplicate
year. The query itself only filters and projects; the order is inherited. -/
theorem claim_series_sorted (df : List BRow) (s c v : String)
    (hsort : df.Pairwise
      (fun a b => strLtB a.FIPS b.FIPS = true ∨ (a.FIPS = b.FIPS ∧ a.YEAR < b.YEAR)))
    (hone : ∀ r1 ∈ df, ∀ r2 ∈ df,
      r1.STATE_NAME = s ∧ r1.COUNTY_NAME = c →
      r2.STATE_NAME = s ∧ r2.COUNTY_NAME = c → r1.FIPS = r2.FIPS) :
    ((get_census_data df s c v).rows.map (fun x => x.YEAR)).Pairwise (· < ·) := by
  simp only [get_census_data, List.map_map]
  rw [List.pairwise_map]
  have hsub : List.Sublist
      (df.filter (fun r : BRow => decide (r.STATE_NAME = s ∧ r.COUNTY_NAME = c))) df :=
    List.filter_sublist df
  have hp := List.Pairwise.sublist hsub hsort
  refine List.Pairwise.imp_of_mem ?_ hp
  intro a b ha hb hrel
  have hamem := List.mem_filter.mp ha
  have hbmem := List.mem_filter.mp hb
  have hafe : a.STATE_NAME = s ∧ a.COUNTY_NAME = c := of_decide_eq_true hamem.2
  have hbfe : b.STATE_NAME = s ∧ b.COUNTY_NAME = c := of_decide_eq_true hbmem.2
  have hfips := hone a hamem.1 b hbmem.1 hafe hbfe
  rcases hrel with h | h
  · rw [hfips, strLtB_irrefl] at h
    exact absurd h (by simp)
  · exact h.2

/-- Witness for C5 at a concrete two year table of a single region. -/
theorem claim_series_sorted_witness :
    (((get_census_data
        [⟨"Alabama", "Autauga County", 2019, "01001", [("Total Population", some 55000)]⟩,
         ⟨"Alabama", "Autauga County", 2021, "01001", [("Total Population", some 56000)]⟩]
        "Alabama" "Autauga County" "Total Population").rows.map
      (fun x => x.YEAR)).Pairwise (· < ·)) :=
  claim_series_sorted
    [⟨"Alabama", "Autauga County", 2019, "01001", [("Total Population", some 55000)]⟩,
     ⟨"Alabama", "Autauga County", 2021, "01001", [("Total Population", some 56000)]⟩]
    "Alabama" "Autauga County" "Total Population" (by decide) (by decide)

/-- C4: every row of the table persisted by the Builder comes from a
downloaded row whose combined region name appears in both the 2019 and the
2021 reference downloads; a name missing from either one contributes no row
at all, for any year. -/
theorem claim_stable_counties (rows : List GenRow) (n19 n21 : List String)
    (census_vars : List (String × String)) (tbl : List (List (String × Cell)))
    (hok : buildTable rows n19 n21 census_vars = .ok tbl) :
    ∀ cl ∈ tbl, ∃ sp : SplicedRow, cl = persistRow census_vars sp
      ∧ sp.NAME ∈ n19 ∧ sp.NAME ∈ n21
      ∧ ∃ g ∈ rows, spliceRow g = .ok sp := by
  unfold buildTable at hok
  cases hm : mapExcept spliceRow (processedRows rows n19 n21) with
  | error e => rw [hm] at hok; exact absurd hok (by simp)
  | ok rs =>
    rw [hm] at hok
    injection hok with hok
    subst hok
    intro cl hcl
    rcases List.mem_map.mp hcl with ⟨sp, hsp, rfl⟩
    rcases mapExcept_ok_mem spliceRow _ rs hm sp hsp with ⟨g, hg, hgok⟩
    have hgname := (spliceRow_ok_fields g sp hgok).1
    have hgmem : g ∈ (rows.filter
        (fun r => decide (r.NAME ∈ names_of_counties_in_both n19 n21))) :=
      List.mem_mergeSort.mp hg
    have hgmem2 := List.mem_filter.mp hgmem
    have hgin : g.NAME ∈ names_of_counties_in_both n19 n21 := of_decide_eq_true hgmem2.2
    have hboth : g.NAME ∈ n19 ∧ g.NAME ∈ n21 := by
      have := hgin
      rw [names_of_counties_in_both] at this
      exact List.mem_inter_iff.mp this
    exact ⟨sp, rfl, hgname ▸ hboth.1, hgname ▸ hboth.2, g, hgmem2.1, hgok⟩

/-- Witness for C4 at a one row build whose name is in both reference lists,
instanced at the single persisted row. -/
theorem claim_stable_counties_witness :
    ∃ sp : SplicedRow,
      persistRow [("B01001_001E", "Total Population")]
          ⟨"01", "001", "Autauga County, Alabama", "Autauga County", "Alabama", 2019,
            some 3500, [("B01001_001E", some 55000)]⟩ =
        persistRow [("B01001_001E", "Total Population")] sp
      ∧ sp.NAME ∈ ["Autauga County, Alabama"] ∧ sp.NAME ∈ ["Autauga County, Alabama"]
      ∧ ∃ g ∈ [(⟨"01", "001", "Autauga County, Alabama", "Autauga County", "Alabama", 2019,
          none, some 3500, [("B01001_001E", some 55000)]⟩ : GenRow)], spliceRow g = .ok sp :=
  claim_stable_counties
    [⟨"01", "001", "Autauga County, Alabama", "Autauga County", "Alabama", 2019,
        none, some 3500, [("B01001_001E", some 55000)]⟩]
    ["Autauga County, Alabama"] ["Autauga County, Alabama"]
    [("B01001_001E", "Total Population")] _
    (by
      have hpr : processedRows
          [⟨"01", "001", "Autauga County, Alabama", "Autauga County", "Alabama", 2019,
              none, some 3500, [("B01001_001E", some 55000)]⟩]
          ["Autauga County, Alabama"] ["Autauga County, Alabama"] =
          [⟨"01", "001", "Autauga County, Alabama", "Autauga County", "Alabama", 2019,
              none, some 3500, [("B01001_001E", some 55000)]⟩] := by
        rw [processedRows, List.filter_cons_of_pos (by decide), List.filter_nil]
        exact List.mergeSort_singleton _
      unfold buildTable
      rw [hpr]
      rfl)
    (persistRow [("B01001_001E", "Total Population")]
      ⟨"01", "001", "Autauga County, Alabama", "Autauga County", "Alabama", 2019,
        some 3500, [("B01001_001E", some 55000)]⟩)
    (List.mem_singleton.mpr rfl)

/-- C2: the merge of the two work from home source columns aborts the build
(no output produced) exactly when some row reaching the merge has both source
fields populated; on every row with at most one populated field the merged
value is the populated field and is null exactly when both fields are null. -/
theorem claim_wfh_merge (rows : List GenRow) (n19 n21 : List String)
    (census_vars : List (String × String)) :
    ((∃ r ∈ processedRows rows n19 n21, r.B08006_021E.isSome ∧ r.B08006_017E.isSome) ↔
      ∃ e, buildTable rows n19 n21 census_vars = .error e)
    ∧ (∀ row : GenRow, ¬(row.B08006_021E.isSome ∧ row.B08006_017E.isSome) →
        ∃ w, splice_wfh_columns row = .ok w
          ∧ (row.B08006_021E.isSome → w = row.B08006_021E)
          ∧ (row.B08006_017E.isSome → w = row.B08006_017E)
          ∧ (w = none ↔ row.B08006_021E = none ∧ row.B08006_017E = none)) := by
  constructor
  · constructor
    · rintro ⟨r, hr, hboth⟩
      have herr : spliceRow r = .error "" := by
        unfold spliceRow splice_wfh_columns
        rw [if_pos hboth]
      have := mapExcept_error_of_mem spliceRow (processedRows rows n19 n21)
        (fun a e hae => by
          unfold spliceRow splice_wfh_columns at hae
          by_cases hb : a.B08006_021E.isSome ∧ a.B08006_017E.isSome
          · rw [if_pos hb] at hae; injection hae with hae; exact hae.symm
          · rw [if_neg hb] at hae
            by_cases h21 : a.B08006_021E.isSome
            · rw [if_pos h21] at hae; exact absurd hae (by simp)
            · rw [if_neg h21] at hae; exact absurd hae (by simp))
        ⟨r, hr, "", herr⟩
      refine ⟨"", ?_⟩
      unfold buildTable
      rw [this]
    · rintro ⟨e, he⟩
      by_contra hno
      push_neg at hno
      have hall : ∀ a ∈ processedRows rows n19 n21, ∃ b, spliceRow a = .ok b := by
        intro a ha
        have hnot := hno a ha
        unfold spliceRow splice_wfh_columns
        rw [if_neg (fun hc => hnot hc.1 hc.2)]
        by_cases h21 : a.B08006_021E.isSome
        · rw [if_pos h21]; exact ⟨_, rfl⟩
        · rw [if_neg h21]; exact ⟨_, rfl⟩
      rcases (mapExcept_ok_iff spliceRow _).mpr hall with ⟨bs, hbs⟩
      unfold buildTable at he
      rw [hbs] at he
      exact absurd he (by simp)
  · intro row hrow
    unfold splice_wfh_columns
    rw [if_neg hrow]
    by_cases h21 : row.B08006_021E.isSome
    · rw [if_pos h21]
      refine ⟨row.B08006_021E, rfl, fun _ => rfl, fun h17 => absurd ⟨h21, h17⟩ hrow, ?_⟩
      constructor
      · intro hn
        exact absurd (hn ▸ h21) (by simp)
      · rintro ⟨h1, _⟩
        exact h1
    · rw [if_neg h21]
      refine ⟨row.B08006_017E, rfl, fun hs => absurd hs h21, fun _ => rfl, ?_⟩
      constructor
      · intro hn
        exact ⟨Option.not_isSome_iff_eq_none.mp h21, hn⟩
      · rintro ⟨_, h2⟩
        exact h2

/-- Witness for C2: a violating row yields an error from the build, and a
valid row yields the populated field as merged value. -/
theorem claim_wfh_merge_witness :
    (∃ e, buildTable
        [⟨"01", "001", "Autauga County, Alabama", "Autauga County", "Alabama", 2019,
            some 3500, some 3600, []⟩]
        ["Autauga County, Alabama"] ["Autauga County, Alabama"] [] = .error e)
    ∧ (∃ w, splice_wfh_columns
        (⟨"01", "001", "Autauga County, Alabama", "Autauga County", "Alabama", 2019,
            some 3500, none, []⟩ : GenRow) = .ok w
        ∧ ((⟨"01", "001", "Autauga County, Alabama", "Autauga County", "Alabama", 2019,
            some 3500, none, []⟩ : GenRow).B08006_021E.isSome →
            w = (⟨"01", "001", "Autauga County, Alabama", "Autauga County", "Alabama", 2019,
            some 3500, none, []⟩ : GenRow).B08006_021E)
        ∧ ((⟨"01", "001", "Autauga County, Alabama", "Autauga County", "Alabama", 2019,
            some 3500, none, []⟩ : GenRow).B08006_017E.isSome →
            w = (⟨"01", "001", "Autauga County, Alabama", "Autauga County", "Alabama", 2019,
            some 3500, none, []⟩ : GenRow).B08006_017E)
        ∧ (w = none ↔ (⟨"01", "001", "Autauga County, Alabama", "Autauga County", "Alabama", 2019,
            some 3500, none, []⟩ : GenRow).B08006_021E = none
          ∧ (⟨"01", "001", "Autauga County, Alabama", "Autauga County", "Alabama", 2019,
            some 3500, none, []⟩ : GenRow).B08006_017E = none)) :=
  ⟨(claim_wfh_merge
      [⟨"01", "001", "Autauga County, Alabama", "Autauga County", "Alabama", 2019,
          some 3500, some 3600, []⟩]
      ["Autauga County, Alabama"] ["Autauga County, Alabama"] []).1.mp
      ⟨⟨"01", "001", "Autauga County, Alabama", "Autauga County", "Alabama", 2019,
          some 3500, some 3600, []⟩,
        List.mem_mergeSort.mpr (by decide), by decide⟩,
   (claim_wfh_merge [] [] [] []).2
      ⟨"01", "001", "Autauga County, Alabama", "Autauga County", "Alabama", 2019,
          some 3500, none, []⟩ (by decide)⟩

/-- C9 counterexample: the assertion of splice_wfh_columns is a bare Python
assert, so the surfaced error is the argument-free AssertionError, modelled
by the empty message. Two builds whose violating rows have different region
names and different years surface the very same error value, so the error
does not identify the offending row key. -/
theorem claim_assert_names_key_counterexample :
    buildTable
      [⟨"01", "001", "Autauga County, Alabama", "Autauga County", "Alabama", 2019,
          some 3500, some 3600, []⟩]
      ["Autauga County, Alabama"] ["Autauga County, Alabama"] [] = .error ""
    ∧ buildTable
      [⟨"02", "013", "Aleutians East Borough, Alaska", "Aleutians East Borough", "Alaska", 2021,
          some 10, some 20, []⟩]
      ["Aleutians East Borough, Alaska"] ["Aleutians East Borough, Alaska"] [] = .error ""
    ∧ ("Autauga County, Alabama" ≠ "Aleutians East Borough, Alaska"
        ∧ (2019 : ℕ) ≠ 2021) := by
  refine ⟨?_, ?_, by decide, by decide⟩
  · have hpr : processedRows
        [⟨"01", "001", "Autauga County, Alabama", "Autauga County", "Alabama", 2019,
            some 3500, some 3600, []⟩]
        ["Autauga County, Alabama"] ["Autauga County, Alabama"] =
        [⟨"01", "001", "Autauga County, Alabama", "Autauga County", "Alabama", 2019,
            some 3500, some 3600, []⟩] := by
      rw [processedRows, List.filter_cons_of_pos (by decide), List.filter_nil]
      exact List.mergeSort_singleton _
    unfold buildTable
    rw [hpr]
    rfl
  · have hpr : processedRows
        [⟨"02", "013", "Aleutians East Borough, Alaska", "Aleutians East Borough", "Alaska", 2021,
            some 10, some 20, []⟩]
        ["Aleutians East Borough, Alaska"] ["Aleutians East Borough, Alaska"] =
        [⟨"02", "013", "Aleutians East Borough, Alaska", "Aleutians East Borough", "Alaska", 2021,
            some 10, some 20, []⟩] := by
      rw [processedRows, List.filter_cons_of_pos (by decide), List.filter_nil]
      exact List.mergeSort_singleton _
    unfold buildTable
    rw [hpr]
    rfl

/-- C9 amended: a row with both work from home source fields populated makes
the build abort with a fatal assertion error before any output is shaped, but
the surfaced error is the constant empty message of a bare assert: it does
not carry the offending region or year. -/
theorem claim_assert_no_key (rows : List GenRow) (n19 n21 : List String)
    (census_vars : List (String × String))
    (hviol : ∃ r ∈ processedRows rows n19 n21,
      r.B08006_021E.isSome ∧ r.B08006_017E.isSome) :
    buildTable rows n19 n21 census_vars = .error "" := by
  rcases hviol with ⟨r, hr, hboth⟩
  have herr : spliceRow r = .error "" := by
    unfold spliceRow splice_wfh_columns
    rw [if_pos hboth]
  have hme := mapExcept_error_of_mem spliceRow (processedRows rows n19 n21)
    (fun a e hae => by
      unfold spliceRow splice_wfh_columns at hae
      by_cases hb : a.B08006_021E.isSome ∧ a.B08006_017E.isSome
      · rw [if_pos hb] at hae; injection hae with hae; exact hae.symm
      · rw [if_neg hb] at hae
        by_cases h21 : a.B08006_021E.isSome
        · rw [if_pos h21] at hae; exact absurd hae (by simp)
        · rw [if_neg h21] at hae; exact absurd hae (by simp))
    ⟨r, hr, "", herr⟩
  unfold buildTable
  rw [hme]

/-- Witness for the amended C9 at a concrete violating build. -/
theorem claim_assert_no_key_witness :
    buildTable
      [⟨"01", "001", "Autauga County, Alabama", "Autauga County", "Alabama", 2019,
          some 3500, some 3600, []⟩]
      ["Autauga County, Alabama"] ["Autauga County, Alabama"] [] = .error "" :=
  claim_assert_no_key
    [⟨"01", "001", "Autauga County, Alabama", "Autauga County", "Alabama", 2019,
        some 3500, some 3600, []⟩]
    ["Autauga County, Alabama"] ["Autauga County, Alabama"] []
    ⟨⟨"01", "001", "Autauga County, Alabama", "Autauga County", "Alabama", 2019,
        some 3500, some 3600, []⟩,
      List.mem_mergeSort.mpr (by decide), by decide⟩

/-- C6: each persisted row has column names exactly STATE_NAME, COUNTY_NAME,
YEAR, the deduplicated display labels in first-seen configuration order, and
FIPS last, whose value is the concatenation of the raw state and county
identifiers; the raw identifier columns are dropped and no index column is
written. The hypotheses record that no display label collides with the two
raw identifier column names, which holds for the actual configuration. -/
theorem claim_persist_columns (census_vars : List (String × String)) (r : SplicedRow)
    (h1 : "STATE" ∉ get_unique_census_labels census_vars)
    (h2 : "COUNTY" ∉ get_unique_census_labels census_vars) :
    (persistRow census_vars r).map Prod.fst =
      ["STATE_NAME", "COUNTY_NAME", "YEAR"] ++ get_unique_census_labels census_vars ++ ["FIPS"]
    ∧ (persistRow census_vars r).getLast? = some ("FIPS", Cell.str (r.STATE ++ r.COUNTY))
    ∧ "STATE" ∉ (persistRow census_vars r).map Prod.fst
    ∧ "COUNTY" ∉ (persistRow census_vars r).map Prod.fst := by
  have hmain : persistRow census_vars r =
      (column_order census_vars).map
        (fun c => (c, ((splicedAssoc census_vars r).lookup c).getD (Cell.num none)))
      ++ [("FIPS", Cell.str (r.STATE ++ r.COUNTY))] := by
    rw [persistRow, List.filter_append, List.filter_append]
    have hpre : List.filter (fun p => !(p.1 == "STATE" || p.1 == "COUNTY"))
        [("STATE", Cell.str r.STATE), ("COUNTY", Cell.str r.COUNTY)] = [] := by
      simp [List.filter]
    have hfip : List.filter (fun p => !(p.1 == "STATE" || p.1 == "COUNTY"))
        [("FIPS", Cell.str (r.STATE ++ r.COUNTY))] =
        [("FIPS", Cell.str (r.STATE ++ r.COUNTY))] := by
      simp [List.filter]
    have hsel : List.filter (fun p => !(p.1 == "STATE" || p.1 == "COUNTY"))
        (selectCols (column_order census_vars) (splicedAssoc census_vars r)) =
        (column_order census_vars).map
          (fun c => (c, ((splicedAssoc census_vars r).lookup c).getD (Cell.num none))) := by
      rw [selectCols, List.filter_map]
      have hcols : List.filter
          ((fun p : String × Cell => !(p.1 == "STATE" || p.1 == "COUNTY")) ∘
            (fun c => (c, ((splicedAssoc census_vars r).lookup c).getD (Cell.num none))))
          (column_order census_vars) = column_order census_vars := by
        apply List.filter_eq_self.mpr
        intro c hc
        rcases List.mem_append.mp hc with hc | hc
        · simp only [List.mem_cons, List.not_mem_nil, or_false] at hc
          rcases hc with rfl | rfl | rfl <;> rfl
        · have hs : c ≠ "STATE" := fun h => h1 (h ▸ hc)
          have hco : c ≠ "COUNTY" := fun h => h2 (h ▸ hc)
          simp [Function.comp, hs, hco]
      rw [hcols]
    rw [hpre, hfip, hsel]
    rfl
  refine ⟨?_, ?_, ?_, ?_⟩
  · rw [hmain, List.map_append, List.map_map]
    have : (Prod.fst ∘ fun c : String =>
        (c, ((splicedAssoc census_vars r).lookup c).getD (Cell.num none))) = id := rfl
    rw [this, List.map_id, column_order]
    rfl
  · rw [hmain]
    exact List.getLast?_concat _
  · rw [hmain, List.map_append, List.map_map]
    intro hmem
    rcases List.mem_append.mp hmem with hm | hm
    · rcases List.mem_map.mp hm with ⟨c, hc, hceq⟩
      have : c = "STATE" := hceq
      subst this
      rw [column_order] at hc
      rcases List.mem_append.mp hc with hc | hc
      · simp at hc
      · exact h1 hc
    · simp at hm
  · rw [hmain, List.map_append, List.map_map]
    intro hmem
    rcases List.mem_append.mp hmem with hm | hm
    · rcases List.mem_map.mp hm with ⟨c, hc, hceq⟩
      have : c = "COUNTY" := hceq
      subst this
      rw [column_order] at hc
      rcases List.mem_append.mp hc with hc | hc
      · simp at hc
      · exact h2 hc
    · simp at hm

/-- Witness for C6 at the real configuration shape, including the duplicate
work from home label, and a concrete row. -/
theorem claim_persist_columns_witness :
    (persistRow
        [("B01001_001E", "Total Population"), ("B08006_021E", "Total Worked from Home"),
          ("B08006_017E", "Total Worked from Home")]
        ⟨"01", "001", "Autauga County, Alabama", "Autauga County", "Alabama", 2019,
            some 3500, [("B01001_001E", some 55000)]⟩).map Prod.fst =
      ["STATE_NAME", "COUNTY_NAME", "YEAR"]
        ++ get_unique_census_labels
          [("B01001_001E", "Total Population"), ("B08006_021E", "Total Worked from Home"),
            ("B08006_017E", "Total Worked from Home")] ++ ["FIPS"]
    ∧ (persistRow
        [("B01001_001E", "Total Population"), ("B08006_021E", "Total Worked from Home"),
          ("B08006_017E", "Total Worked from Home")]
        ⟨"01", "001", "Autauga County, Alabama", "Autauga County", "Alabama", 2019,
            some 3500, [("B01001_001E", some 55000)]⟩).getLast? =
        some ("FIPS", Cell.str ("01" ++ "001"))
    ∧ "STATE" ∉ (persistRow
        [("B01001_001E", "Total Population"), ("B08006_021E", "Total Worked from Home"),
          ("B08006_017E", "Total Worked from Home")]
        ⟨"01", "001", "Autauga County, Alabama", "Autauga County", "Alabama", 2019,
            some 3500, [("B01001_001E", some 55000)]⟩).map Prod.fst
    ∧ "COUNTY" ∉ (persistRow
        [("B01001_001E", "Total Population"), ("B08006_021E", "Total Worked from Home"),
          ("B08006_017E", "Total Worked from Home")]
        ⟨"01", "001", "Autauga County, Alabama", "Autauga County", "Alabama", 2019,
            some 3500, [("B01001_001E", some 55000)]⟩).map Prod.fst :=
  claim_persist_columns
    [("B01001_001E", "Total Population"), ("B08006_021E", "Total Worked from Home"),
      ("B08006_017E", "Total Worked from Home")]
    ⟨"01", "001", "Autauga County, Alabama", "Autauga County", "Alabama", 2019,
        some 3500, [("B01001_001E", some 55000)]⟩
    (by decide) (by decide)

theorem PFloat.isNA_iff (x : PFloat) : x.isNA = true ↔ x = .nan := by
  cases x <;> simp [PFloat.isNA]

theorem PFloat.isNA_false_iff (x : PFloat) : x.isNA = false ↔ x ≠ .nan := by
  cases x <;> simp [PFloat.isNA]

theorem withChange_pct_nan_left (p : PivotRow) (h : p.y2019 = .nan) :
    (withChange p).PercentChange = .nan := by
  show (((p.y2021.sub p.y2019).div p.y2019).mul100).round1 = .nan
  rw [h]
  cases p.y2021 <;> rfl

theorem withChange_pct_nan_right (p : PivotRow) (h : p.y2021 = .nan) :
    (withChange p).PercentChange = .nan := by
  show (((p.y2021.sub p.y2019).div p.y2019).mul100).round1 = .nan
  rw [h]
  cases p.y2019 <;> rfl

theorem withChange_pct_nan_sub (p : PivotRow) (h : p.y2021.sub p.y2019 = .nan) :
    (withChange p).PercentChange = .nan := by
  show (((p.y2021.sub p.y2019).div p.y2019).mul100).round1 = .nan
  rw [h]
  cases p.y2019 <;> rfl

theorem withChange_noNA (p : PivotRow) :
    preNoNA (withChange p) = !((withChange p).PercentChange.isNA) := by
  obtain ⟨c, x, y⟩ := p
  cases x <;> cases y <;>
    simp only [withChange, preNoNA, PFloat.sub, PFloat.div, PFloat.mul100,
      PFloat.round1, PFloat.isNA] <;>
    rfl

theorem leNum_trans (x y z : PFloat) (h1 : PFloat.leNum x y = true)
    (h2 : PFloat.leNum y z = true) : PFloat.leNum x z = true := by
  cases x <;> cases y <;> cases z <;> simp_all [PFloat.leNum]
  all_goals exact le_trans h1 h2

theorem leNum_total (x y : PFloat) (hx : x.isNA = false) (hy : y.isNA = false) :
    (PFloat.leNum x y || PFloat.leNum y x) = true := by
  cases x <;> cases y <;> simp_all [PFloat.leNum, PFloat.isNA]
  all_goals exact le_total _ _

theorem descBefore_trans (a b c : RankedPre) (h1 : descBefore a b = true)
    (h2 : descBefore b c = true) : descBefore a c = true := by
  rw [descBefore] at h1 h2 ⊢
  by_cases ha : a.PercentChange.isNA = true
  · rw [if_pos ha] at h1 ⊢
    by_cases hb : b.PercentChange.isNA = true
    · rw [if_pos hb] at h2
      exact h2
    · exact absurd h1 (by simp [hb])
  · rw [if_neg ha] at h1 ⊢
    by_cases hb : b.PercentChange.isNA = true
    · rw [if_pos hb] at h2
      rw [if_pos h2]
    · rw [if_neg hb] at h1 h2
      by_cases hc : c.PercentChange.isNA = true
      · rw [if_pos hc]
      · rw [if_neg hc] at h2 ⊢
        exact leNum_trans _ _ _ h2 h1

theorem descBefore_total (a b : RankedPre) :
    (descBefore a b || descBefore b a) = true := by
  rw [descBefore, descBefore]
  by_cases ha : a.PercentChange.isNA = true
  · by_cases hb : b.PercentChange.isNA = true
    · simp [ha, hb]
    · simp [ha, hb]
  · by_cases hb : b.PercentChange.isNA = true
    · simp [ha, hb]
    · simp only [if_neg ha, if_neg hb]
      exact leNum_total _ _ (by simpa using hb) (by simpa using ha)

theorem descBefore_nan_mono (x y : RankedPre) (h : descBefore x y = true)
    (hx : (!(x.PercentChange.isNA)) = false) : (!(y.PercentChange.isNA)) = false := by
  simp only [Bool.not_eq_false'] at hx ⊢
  rw [descBefore, if_pos hx] at h
  exact h

theorem filter_eq_takeWhile_of_pairwise {α : Type} (p : α → Bool) (l : List α)
    (h : l.Pairwise (fun a b => p a = false → p b = false)) :
    l.filter p = l.takeWhile p := by
  induction l with
  | nil => rfl
  | cons a as ih =>
    rcases List.pairwise_cons.mp h with ⟨ha, htail⟩
    by_cases hpa : p a = true
    · rw [List.filter_cons_of_pos hpa, List.takeWhile_cons_of_pos hpa, ih htail]
    · have hpa2 : p a = false := by
        cases hp : p a
        · rfl
        · exact absurd hp hpa
      rw [List.filter_cons_of_neg hpa, List.takeWhile_cons_of_neg hpa]
      exact List.filter_eq_nil_iff.mpr
        (fun b hb => by rw [ha b hb hpa2]; simp)

theorem addRanks_map_strip : ∀ (k : ℕ) (l : List RankedPre),
    (addRanks k l).map stripRank = l := by
  intro k l
  induction l generalizing k with
  | nil => rfl
  | cons p ps ih =>
    show stripRank _ :: (addRanks (k + 1) ps).map stripRank = p :: ps
    rw [ih]
    rfl

theorem addRanks_length (k : ℕ) (l : List RankedPre) :
    (addRanks k l).length = l.length := by
  have := congrArg List.length (addRanks_map_strip k l)
  rwa [List.length_map] at this

theorem mem_addRanks_strip {x : RankedRow} (k : ℕ) (l : List RankedPre)
    (hx : x ∈ addRanks k l) : stripRank x ∈ l := by
  rw [← addRanks_map_strip k l]
  exact List.mem_map_of_mem stripRank hx

theorem mem_addRanks_of_mem {p : RankedPre} : ∀ (k : ℕ) (l : List RankedPre),
    p ∈ l → ∃ n, (⟨n, p.County, p.y2019, p.y2021, p.Change, p.PercentChange⟩ :
      RankedRow) ∈ addRanks k l := by
  intro k l
  induction l generalizing k with
  | nil => intro h; simp at h
  | cons q qs ih =>
    intro h
    rcases List.mem_cons.mp h with rfl | h
    · exact ⟨k, List.mem_cons_self _ _⟩
    · rcases ih (k + 1) h with ⟨n, hn⟩
      exact ⟨n, List.mem_cons_of_mem _ hn⟩

theorem addRanks_pairwise {Q : RankedPre → RankedPre → Prop} :
    ∀ (k : ℕ) (l : List RankedPre), l.Pairwise Q →
      (addRanks k l).Pairwise (fun a b => Q (stripRank a) (stripRank b)) := by
  intro k l
  induction l generalizing k with
  | nil => intro _; exact List.Pairwise.nil
  | cons p ps ih =>
    intro h
    rcases List.pairwise_cons.mp h with ⟨hp, htail⟩
    refine List.Pairwise.cons ?_ (ih (k + 1) htail)
    intro b hb
    exact hp (stripRank b) (mem_addRanks_strip (k + 1) ps hb)

theorem addRanks_map_rank : ∀ (k : ℕ) (l : List RankedPre),
    (addRanks k l).map (fun r => r.Rank) = List.range' k l.length := by
  intro k l
  induction l generalizing k with
  | nil => rfl
  | cons p ps ih =>
    show k :: (addRanks (k + 1) ps).map (fun r => r.Rank) = List.range' k (ps.length + 1)
    rw [ih, List.range'_succ]

theorem addRanks_takeWhile_pct : ∀ (k : ℕ) (l : List RankedPre),
    (addRanks k l).takeWhile (fun r => !(r.PercentChange.isNA)) =
      addRanks k (l.takeWhile (fun p => !(p.PercentChange.isNA))) := by
  intro k l
  induction l generalizing k with
  | nil => rfl
  | cons p ps ih =>
    rw [show addRanks k (p :: ps) =
        (⟨k, p.County, p.y2019, p.y2021, p.Change, p.PercentChange⟩ : RankedRow) ::
          addRanks (k + 1) ps from rfl,
      List.takeWhile_cons, List.takeWhile_cons]
    by_cases hp : (!(p.PercentChange.isNA)) = true
    · rw [if_pos (show (!((⟨k, p.County, p.y2019, p.y2021, p.Change,
          p.PercentChange⟩ : RankedRow).PercentChange.isNA)) = true from hp),
        if_pos hp, ih]
      rfl
    · rw [if_neg (show ¬(!((⟨k, p.County, p.y2019, p.y2021, p.Change,
          p.PercentChange⟩ : RankedRow).PercentChange.isNA)) = true from hp),
        if_neg hp]
      rfl

theorem get_ranking_df_eq (df : List BRow) (column : String) :
    get_ranking_df df column =
      addRanks 1 ((((pivot_table (rankInput df column)).map withChange).mergeSort
        descBefore).takeWhile (fun p => !(p.PercentChange.isNA))) := by
  rw [get_ranking_df]
  have hcongr : (addRanks 1 (((pivot_table (rankInput df column)).map withChange).mergeSort
      descBefore)).filter rankedNoNA =
      (addRanks 1 (((pivot_table (rankInput df column)).map withChange).mergeSort
      descBefore)).filter (fun r => !(r.PercentChange.isNA)) := by
    apply List.filter_congr
    intro x hx
    have hx2 := mem_addRanks_strip _ _ hx
    rw [List.mem_mergeSort] at hx2
    rcases List.mem_map.mp hx2 with ⟨p, _, hxp⟩
    have h1 : rankedNoNA x = preNoNA (stripRank x) := rfl
    rw [h1, ← hxp, withChange_noNA p, hxp]
    rfl
  rw [hcongr]
  rw [filter_eq_takeWhile_of_pairwise _ _ ?hpair, addRanks_takeWhile_pct]
  case hpair =>
    have hs := List.sorted_mergeSort descBefore_trans descBefore_total
      ((pivot_table (rankInput df column)).map withChange)
    have hs2 := addRanks_pairwise 1 _ hs
    exact hs2.imp (fun {a b} hab hfa => descBefore_nan_mono _ _ hab hfa)

theorem addRanks_map_county (k : ℕ) (l : List RankedPre) :
    (addRanks k l).map (fun r => r.County) = l.map (fun p => p.County) := by
  conv_rhs => rw [← addRanks_map_strip k l]
  rw [List.map_map]
  rfl

/-- C3: the ranking of a variable has, per region, the combined display name
and the four computed columns: the value of each reference year, the change
(the 2021 value minus the 2019 value) and the percent change (difference over
the 2019 value times one hundred, rounded to one decimal place); rows are
pairwise descending on percent change, the Rank column is dense and 1-based,
and no region occurs twice. The per-region membership takes as hypotheses
that the region has exactly one row and a non-null value in each reference
year (one row per region and year is the persisted table invariant) with a
nonzero 2019 value; rows with null values are dropped, and a zero 2019 value
produces an infinite percent change treated by the claims on edge cases. -/
theorem claim_ranking_shape (df : List BRow) (column : String) :
    ((get_ranking_df df column).map (fun r => r.Rank) =
        List.range' 1 (get_ranking_df df column).length)
    ∧ (get_ranking_df df column).Pairwise
        (fun a b => PFloat.leNum b.PercentChange a.PercentChange = true)
    ∧ ((get_ranking_df df column).map (fun r => r.County)).Nodup
    ∧ (∀ (county state : String) (a b : ℚ), a ≠ 0 →
        (rankInput df column).filter
            (fun r => r.County = county ++ ", " ++ state ∧ r.YEAR = 2019) =
          [⟨county ++ ", " ++ state, 2019, some a⟩] →
        (rankInput df column).filter
            (fun r => r.County = county ++ ", " ++ state ∧ r.YEAR = 2021) =
          [⟨county ++ ", " ++ state, 2021, some b⟩] →
        ∃ k, (⟨k, county ++ ", " ++ state, .fin a, .fin b, .fin (b - a),
          .fin (rnd1 ((b - a) / a * 100))⟩ : RankedRow) ∈ get_ranking_df df column) := by
  refine ⟨?_, ?_, ?_, ?_⟩
  · rw [get_ranking_df_eq, addRanks_map_rank, addRanks_length]
  · rw [get_ranking_df_eq]
    have hs := List.sorted_mergeSort descBefore_trans descBefore_total
      ((pivot_table (rankInput df column)).map withChange)
    have htw : ((((pivot_table (rankInput df column)).map withChange).mergeSort
        descBefore).takeWhile (fun p => !(p.PercentChange.isNA))).Pairwise
        (fun a b => descBefore a b = true) :=
      List.Pairwise.sublist
        (List.takeWhile_sublist (fun p : RankedPre => !(p.PercentChange.isNA))) hs
    have htw2 : ((((pivot_table (rankInput df column)).map withChange).mergeSort
        descBefore).takeWhile (fun p => !(p.PercentChange.isNA))).Pairwise
        (fun a b => PFloat.leNum b.PercentChange a.PercentChange = true) := by
      refine List.Pairwise.imp_of_mem ?_ htw
      intro a b ha hb hab
      have hna := List.mem_takeWhile_imp ha
      have hnb := List.mem_takeWhile_imp hb
      simp only [Bool.not_eq_true'] at hna hnb
      rw [descBefore] at hab
      rw [if_neg (by rw [hna]; exact Bool.false_ne_true)] at hab
      rw [if_neg (by rw [hnb]; exact Bool.false_ne_true)] at hab
      exact hab
    have := addRanks_pairwise 1 _ htw2
    exact this.imp (fun {a b} hab => hab)
  · rw [get_ranking_df_eq, addRanks_map_county]
    have hsub : List.Sublist
        (((((pivot_table (rankInput df column)).map withChange).mergeSort
          descBefore).takeWhile (fun p => !(p.PercentChange.isNA))).map
            (fun p => p.County))
        ((((pivot_table (rankInput df column)).map withChange).mergeSort
          descBefore).map (fun p => p.County)) :=
      List.Sublist.map _
        (List.takeWhile_sublist (fun p : RankedPre => !(p.PercentChange.isNA)))
    refine List.Nodup.sublist hsub ?_
    have hperm : ((((pivot_table (rankInput df column)).map withChange).mergeSort
        descBefore).map (fun p => p.County)).Perm
        (((pivot_table (rankInput df column)).map withChange).map (fun p => p.County)) :=
      List.Perm.map _ (List.mergeSort_perm _ _)
    rw [List.Perm.nodup_iff hperm]
    rw [List.map_map]
    have hcw : ((fun p : RankedPre => p.County) ∘ withChange) =
        (fun p : PivotRow => p.County) := rfl
    rw [hcw]
    rw [pivot_table, List.filter_map, List.map_map]
    have hid : ((fun p : PivotRow => p.County) ∘
        (fun c => (⟨c, cellFor (rankInput df column) c 2019,
          cellFor (rankInput df column) c 2021⟩ : PivotRow))) = id := rfl
    rw [hid, List.map_id]
    refine List.Nodup.sublist (List.filter_sublist _) ?_
    rw [pivotCounties]
    rw [List.Perm.nodup_iff (List.mergeSort_perm _ _)]
    exact nodup_uniqueFirst _
  · intro county state a b ha h19 h21
    have hcell19 : cellFor (rankInput df column) (county ++ ", " ++ state) 2019 =
        .fin a := by
      rw [cellFor, h19]
      show aggMean [a] = .fin a
      rw [aggMean]
      norm_num
    have hcell21 : cellFor (rankInput df column) (county ++ ", " ++ state) 2021 =
        .fin b := by
      rw [cellFor, h21]
      show aggMean [b] = .fin b
      rw [aggMean]
      norm_num
    have hmemf : (⟨county ++ ", " ++ state, 2019, some a⟩ : RankInRow) ∈
        (rankInput df column).filter (fun r : RankInRow =>
          decide (r.County = county ++ ", " ++ state ∧ r.YEAR = 2019)) := by
      rw [h19]
      exact List.mem_singleton.mpr rfl
    have hmemin : (⟨county ++ ", " ++ state, 2019, some a⟩ : RankInRow) ∈
        rankInput df column := List.mem_of_mem_filter hmemf
    have hcty : county ++ ", " ++ state ∈ pivotCounties (rankInput df column) := by
      rw [pivotCounties, List.mem_mergeSort, mem_uniqueFirst]
      exact List.mem_map_of_mem (fun r => r.County) hmemin
    have hpiv : (⟨county ++ ", " ++ state, .fin a, .fin b⟩ : PivotRow) ∈
        pivot_table (rankInput df column) := by
      rw [pivot_table]
      refine List.mem_filter.mpr ⟨?_, by simp⟩
      refine List.mem_map.mpr ⟨county ++ ", " ++ state, hcty, ?_⟩
      rw [hcell19, hcell21]
    have hwc : withChange ⟨county ++ ", " ++ state, .fin a, .fin b⟩ =
        ⟨county ++ ", " ++ state, .fin a, .fin b, .fin (b - a),
          .fin (rnd1 ((b - a) / a * 100))⟩ := by
      rw [withChange]
      show (⟨_, _, _, (PFloat.fin b).sub (.fin a),
          ((((PFloat.fin b).sub (.fin a)).div (.fin a)).mul100).round1⟩ : RankedPre) = _
      rw [show (PFloat.fin b).sub (.fin a) = .fin (b - a) from rfl]
      rw [show (PFloat.fin (b - a)).div (.fin a) = .fin ((b - a) / a) by
        rw [PFloat.div]; rw [if_neg ha]]
      rfl
    have hsortmem : (⟨county ++ ", " ++ state, .fin a, .fin b, .fin (b - a),
        .fin (rnd1 ((b - a) / a * 100))⟩ : RankedPre) ∈
        ((pivot_table (rankInput df column)).map withChange).mergeSort descBefore := by
      rw [List.mem_mergeSort, ← hwc]
      exact List.mem_map_of_mem withChange hpiv
    rcases mem_addRanks_of_mem 1 _ hsortmem with ⟨n, hn⟩
    refine ⟨n, ?_⟩
    rw [get_ranking_df]
    exact List.mem_filter.mpr ⟨hn, rfl⟩

/-- Witness for C3 at a concrete two region table, region A having values 100
and 150 in the reference years. -/
theorem claim_ranking_shape_witness :
    ∃ k, (⟨k, "A" ++ ", " ++ "S", .fin 100, .fin 150, .fin (150 - 100),
        .fin (rnd1 ((150 - 100) / 100 * 100))⟩ : RankedRow) ∈
      get_ranking_df dfRankAB "Total Population" :=
  (claim_ranking_shape dfRankAB "Total Population").2.2.2 "A" "S" 100 150
    (by decide) (by decide) (by decide)

theorem dfRankB_cell2019 :
    cellFor (rankInput dfRankB "Total Population") "B, S" 2019 = .fin 0 := by
  rw [cellFor]
  rw [show (rankInput dfRankB "Total Population").filter
      (fun r => decide (r.County = "B, S" ∧ r.YEAR = 2019)) =
      [⟨"B, S", 2019, some 0⟩] from rfl]
  show aggMean [0] = .fin 0
  rw [aggMean]
  norm_num

theorem dfRankB_cell2021 :
    cellFor (rankInput dfRankB "Total Population") "B, S" 2021 = .fin 150 := by
  rw [cellFor]
  rw [show (rankInput dfRankB "Total Population").filter
      (fun r => decide (r.County = "B, S" ∧ r.YEAR = 2021)) =
      [⟨"B, S", 2021, some 150⟩] from rfl]
  show aggMean [150] = .fin 150
  rw [aggMean]
  norm_num

theorem dfRankB_pivot :
    pivot_table (rankInput dfRankB "Total Population") =
      [⟨"B, S", .fin 0, .fin 150⟩] := by
  have h1 : pivotCounties (rankInput dfRankB "Total Population") = ["B, S"] := by
    rw [pivotCounties]
    rw [show uniqueFirst ((rankInput dfRankB "Total Population").map
        (fun r => r.County)) = ["B, S"] from rfl]
    exact List.mergeSort_singleton _
  rw [pivot_table, h1]
  rw [show (["B, S"].map (fun c => (⟨c, cellFor (rankInput dfRankB "Total Population") c 2019,
      cellFor (rankInput dfRankB "Total Population") c 2021⟩ : PivotRow))) =
    [⟨"B, S", cellFor (rankInput dfRankB "Total Population") "B, S" 2019,
      cellFor (rankInput dfRankB "Total Population") "B, S" 2021⟩] from rfl]
  rw [dfRankB_cell2019, dfRankB_cell2021]
  rfl

theorem dfRankB_ranking :
    get_ranking_df dfRankB "Total Population" =
      [⟨1, "B, S", .fin 0, .fin 150, .fin 150, .inf⟩] := by
  have h3 : withChange ⟨"B, S", .fin 0, .fin 150⟩ =
      ⟨"B, S", .fin 0, .fin 150, .fin 150, .inf⟩ := by
    rw [withChange]
    rw [show (PFloat.fin 150).sub (.fin 0) = .fin (150 - 0) from rfl]
    rw [show ((150 : ℚ) - 0) = 150 from by norm_num]
    rfl
  rw [get_ranking_df, dfRankB_pivot]
  rw [show ([(⟨"B, S", .fin 0, .fin 150⟩ : PivotRow)].map withChange) =
      [withChange ⟨"B, S", .fin 0, .fin 150⟩] from rfl]
  rw [h3, List.mergeSort_singleton]
  rfl

/-- C1 counterexample: in a table where region B has the 2019 value zero and
the non-null 2021 value 150, the ranking output of get_ranking_df does
contain a row for B (with an infinite percent-change value): the final dropna
only removes NaN, not infinity, so a zero earlier-year denominator with a
non-null, nonzero later value is not excluded. -/
theorem claim_zero_denominator_counterexample :
    (∃ r ∈ get_ranking_df dfRankB "Total Population", r.County = "B" ++ ", " ++ "S")
    ∧ get_ranking_df dfRankB "Total Population" =
        [⟨1, "B, S", .fin 0, .fin 150, .fin 150, .inf⟩] := by
  refine ⟨?_, dfRankB_ranking⟩
  refine ⟨⟨1, "B, S", .fin 0, .fin 150, .fin 150, .inf⟩, ?_, rfl⟩
  rw [dfRankB_ranking]
  exact List.mem_singleton.mpr rfl

/-- C1 amended: a region all of whose 2019 rows carry a null value never
appears in the ranking output (NaN percent change, removed by dropna), but a
zero 2019 value with a non-null nonzero 2021 value is not excluded: such a
region appears with an infinite percent-change value, as the concrete table
dfRankB shows. -/
theorem claim_zero_null_denominator (df : List BRow) (column : String) (cty : String) :
    ((∀ r ∈ rankInput df column, r.County = cty → r.YEAR = 2019 → r.val = none) →
      cty ∉ (get_ranking_df df column).map (fun r => r.County))
    ∧ get_ranking_df dfRankB "Total Population" =
        [⟨1, "B, S", .fin 0, .fin 150, .fin 150, .inf⟩] := by
  refine ⟨?_, dfRankB_ranking⟩
  intro h hmem
  rcases List.mem_map.mp hmem with ⟨row, hrow, hcty⟩
  rw [get_ranking_df] at hrow
  have hf := List.mem_filter.mp hrow
  have hstrip := mem_addRanks_strip _ _ hf.1
  rw [List.mem_mergeSort] at hstrip
  rcases List.mem_map.mp hstrip with ⟨p, hp, hpe⟩
  have hpcty : p.County = cty := by
    have h1 : (withChange p).County = p.County := rfl
    have h2 : (stripRank row).County = row.County := rfl
    rw [← h1, hpe, h2, hcty]
  rw [pivot_table] at hp
  have hp2 := List.mem_of_mem_filter hp
  rcases List.mem_map.mp hp2 with ⟨c, _, hceq⟩
  have hcell : cellFor (rankInput df column) cty 2019 = .nan := by
    rw [cellFor]
    have hnil : ((rankInput df column).filter
        (fun r => decide (r.County = cty ∧ r.YEAR = 2019))).filterMap
          (fun r => r.val) = [] := by
      rw [List.filterMap_eq_nil_iff]
      intro x hx
      have hx2 := List.mem_filter.mp hx
      have hx3 := of_decide_eq_true hx2.2
      exact h x hx2.1 hx3.1 hx3.2
    rw [hnil]
    rfl
  have hpy : p.y2019 = .nan := by
    have hcc : c = cty := by
      have : (⟨c, cellFor (rankInput df column) c 2019,
          cellFor (rankInput df column) c 2021⟩ : PivotRow).County = c := rfl
      rw [← hpcty, ← hceq, this]
    rw [← hceq]
    show cellFor (rankInput df column) c 2019 = .nan
    rw [hcc]
    exact hcell
  have hpct := withChange_pct_nan_left p hpy
  have hrowpct : row.PercentChange = .nan := by
    have h1 : (stripRank row).PercentChange = row.PercentChange := rfl
    rw [← h1, ← hpe, hpct]
  have hfalse : rankedNoNA row = false := by
    rw [rankedNoNA, hrowpct]
    simp [PFloat.isNA]
  exact absurd hf.2 (by rw [hfalse]; exact Bool.false_ne_true)

/-- Witness for the amended C1 at a table whose region has a null 2019
value. -/
theorem claim_zero_null_denominator_witness :
    "C, S" ∉ (get_ranking_df dfRankNull "Total Population").map (fun r => r.County) :=
  (claim_zero_null_denominator dfRankNull "Total Population" "C, S").1 (by decide)

end CensusApp
